import Mathlib

/-!
# Verification of the healthcare records pipeline

Shallow embedding of `src/Experiment-1/Assignment-1/src/healthcare_pipeline.py`
(a single linear pandas script) and proofs about its cleaning/enrichment,
metric aggregation, and chart-rendering behaviour.

Modelling conventions, matching pandas semantics:
* a raw CSV cell is `Option String`; `none` is a missing value (NaN);
* `astype(str)` turns NaN into the literal string `"nan"`;
* `pd.to_datetime(errors := coerce)` is modelled on ISO `YYYY-MM-DD`
  inputs; every other input coerces to NaT (`none`);
* `pd.to_numeric(errors := coerce)` is modelled as parsing an optional
  sign, digits and at most one decimal point (the alphabet that survives
  the billing regex filter); anything else coerces to NaN;
* numeric cells are `Rat` (all values reachable here are finite decimals,
  so decimal text round-trips exactly);
* Python `str.title` / `str.strip` are modelled on the ASCII fragment:
  case mapping on `A`-`Z`/`a`-`z`, whitespace `space \t \n \v \f \r`.
-/

namespace HealthPipe

/-! ## Character helpers (ASCII fragment of Python string methods) -/

/-- ASCII whitespace recognised by `str.strip`. -/
def wsChar (c : Char) : Bool :=
  c.toNat = 32 || c.toNat = 9 || c.toNat = 10 || c.toNat = 11 || c.toNat = 12 || c.toNat = 13

/-- ASCII upper-case letter. -/
def isAsciiUpper (c : Char) : Bool :=
  65 ≤ c.toNat && c.toNat ≤ 90

/-- ASCII lower-case letter. -/
def isAsciiLower (c : Char) : Bool :=
  97 ≤ c.toNat && c.toNat ≤ 122

/-- ASCII letter: the characters Python `str.title` treats as cased. -/
def isLetter (c : Char) : Bool :=
  isAsciiUpper c || isAsciiLower c

/-- ASCII digit. -/
def isDigitChar (c : Char) : Bool :=
  48 ≤ c.toNat && c.toNat ≤ 57

/-- Map an ASCII lower-case letter to upper case, other characters unchanged. -/
def upChar (c : Char) : Char :=
  if 97 ≤ c.toNat ∧ c.toNat ≤ 122 then Char.ofNat (c.toNat - 32) else c

/-- Map an ASCII upper-case letter to lower case, other characters unchanged. -/
def lowChar (c : Char) : Char :=
  if 65 ≤ c.toNat ∧ c.toNat ≤ 90 then Char.ofNat (c.toNat + 32) else c

/-! ## Python string operations on `List Char` -/

/-- Drop leading whitespace (`str.lstrip`). -/
def lstripL (l : List Char) : List Char :=
  l.dropWhile wsChar

/-- Drop trailing whitespace (`str.rstrip`). -/
def rstripL : List Char → List Char
  | [] => []
  | c :: cs =>
    match rstripL cs with
    | [] => if wsChar c then [] else [c]
    | d :: ds => c :: d :: ds

/-- Python `str.strip`: drop whitespace at both ends. -/
def stripL (l : List Char) : List Char :=
  rstripL (lstripL l)

/-- Worker for Python `str.title`: the flag records whether the previous
character was cased (a letter); the first letter of each letter run is
upper-cased and the rest lower-cased. -/
def titleGo : Bool → List Char → List Char
  | _, [] => []
  | b, c :: cs =>
    if isLetter c then (if b then lowChar c else upChar c) :: titleGo true cs
    else c :: titleGo false cs

/-- Python `str.strip` on `String`. -/
def stripStr (s : String) : String :=
  String.mk (stripL s.data)

/-- Python `str.title` on `String`. -/
def titleStr (s : String) : String :=
  String.mk (titleGo false s.data)

/-- Pandas `astype(str)`: NaN prints as the string `"nan"`. -/
def astypeStr : Option String → String
  | none => "nan"
  | some t => t

/-! ## Numeric and date parsing -/

/-- Value of a digit string (most significant first). -/
def natOfDigits (l : List Char) : Nat :=
  l.foldl (fun n c => 10 * n + (c.toNat - 48)) 0

/-- Split a character list at the first `'.'`; `none` when there is no dot. -/
def breakAtDot : List Char → Option (List Char × List Char)
  | [] => none
  | c :: cs =>
    if c = '.' then some ([], cs)
    else (breakAtDot cs).map (fun p => (c :: p.1, p.2))

/-- Unsigned decimal parser: digits with at most one dot and at least one
digit overall, the fragment of Python `float` reachable after the billing
regex filter. -/
def parseNumCore (l : List Char) : Option Rat :=
  match breakAtDot l with
  | none =>
    if !l.isEmpty && l.all isDigitChar then some (natOfDigits l) else none
  | some (a, b) =>
    if !(b.any (fun c => c = '.')) && a.all isDigitChar && b.all isDigitChar
        && (!a.isEmpty || !b.isEmpty) then
      some ((natOfDigits a : Rat) + (natOfDigits b : Rat) / ((10 : Rat) ^ b.length))
    else none

/-- Signed decimal parser (`pd.to_numeric` with `errors := coerce` on the
digits-dot-minus alphabet): unparseable input yields `none` (NaN). -/
def parseNum (l : List Char) : Option Rat :=
  match l with
  | '-' :: rest => (parseNumCore rest).map (fun q => -q)
  | _ => parseNumCore l

/-- A calendar date as parsed by `pd.to_datetime`. -/
structure PDate where
  year : Nat
  month : Nat
  day : Nat
deriving DecidableEq, Repr

/-- Split a character list on a separator character. -/
def splitOnChar (sep : Char) : List Char → List (List Char)
  | [] => [[]]
  | c :: cs =>
    let r := splitOnChar sep cs
    if c = sep then [] :: r
    else
      match r with
      | [] => [[c]]
      | g :: gs => (c :: g) :: gs

/-- `pd.to_datetime(errors := coerce)` modelled on ISO `YYYY-MM-DD` input;
any other input coerces to NaT (`none`). -/
def parseDate (s : String) : Option PDate :=
  match splitOnChar '-' s.data with
  | [y, m, d] =>
    if !y.isEmpty && y.all isDigitChar && !m.isEmpty && m.all isDigitChar
        && !d.isEmpty && d.all isDigitChar
        && 1 ≤ natOfDigits m && natOfDigits m ≤ 12
        && 1 ≤ natOfDigits d && natOfDigits d ≤ 31 then
      some ⟨natOfDigits y, natOfDigits m, natOfDigits d⟩
    else none
  | _ => none

/-- Decimal digits of a natural number, most significant first; the fuel
(first argument) only needs to be positive and at least the digit count. -/
def natDigitsAux : Nat → Nat → List Char
  | 0, _ => []
  | fuel + 1, n =>
    if n < 10 then [Char.ofNat (48 + n)]
    else natDigitsAux fuel (n / 10) ++ [Char.ofNat (48 + n % 10)]

/-- Decimal digits of a natural number, most significant first. -/
def natDigits (n : Nat) : List Char :=
  natDigitsAux (n + 1) n

/-- Left-pad with `'0'` to the given width. -/
def padZero (k : Nat) (l : List Char) : List Char :=
  List.replicate (k - l.length) '0' ++ l

/-- `dt.to_period("M").astype(str)` on a non-NaT date: `"YYYY-MM"`. -/
def fmtYM (d : PDate) : String :=
  String.mk (padZero 4 (natDigits d.year) ++ ('-' :: padZero 2 (natDigits d.month)))

/-- `dt.strftime("%b")`: three-letter English month abbreviation. -/
def monthAbbrev : Nat → String
  | 1 => "Jan" | 2 => "Feb" | 3 => "Mar" | 4 => "Apr"
  | 5 => "May" | 6 => "Jun" | 7 => "Jul" | 8 => "Aug"
  | 9 => "Sep" | 10 => "Oct" | 11 => "Nov" | 12 => "Dec"
  | _ => ""

/-! ## Generic list machinery used by the pipeline -/

/-- Worker for `drop_duplicates`: `seen` holds the row values already
emitted; later copies of them are dropped. -/
def dedupAcc {α : Type} [DecidableEq α] : List α → List α → List α
  | _, [] => []
  | seen, x :: xs =>
    if x ∈ seen then dedupAcc seen xs else x :: dedupAcc (x :: seen) xs

/-- `drop_duplicates`: keep the first occurrence of every row value. -/
def dedupKF {α : Type} [DecidableEq α] (l : List α) : List α :=
  dedupAcc [] l

/-- Insert into an ascending list of strings (lexicographic code-point
order, the order pandas uses to sort `"YYYY-MM"` keys). -/
def lexLe : List Char → List Char → Bool
  | [], _ => true
  | _ :: _, [] => false
  | a :: as, b :: bs =>
    if a.toNat < b.toNat then true
    else if b.toNat < a.toNat then false
    else lexLe as bs

/-- String comparison used by pandas when sorting month keys. -/
def strLeB (a b : String) : Bool :=
  lexLe a.data b.data

/-- Insertion into an ascending list of strings. -/
def insertAsc (x : String) : List String → List String
  | [] => [x]
  | y :: ys => if strLeB x y then x :: y :: ys else y :: insertAsc x ys

/-- Ascending sort of strings (group keys of a pandas `groupby`). -/
def sortStrAsc (l : List String) : List String :=
  l.foldr insertAsc []

/-- Insertion into a count list sorted descending by count. -/
def insertCountDesc (x : String × Nat) : List (String × Nat) → List (String × Nat)
  | [] => [x]
  | y :: ys => if y.2 < x.2 then x :: y :: ys else y :: insertCountDesc x ys

/-- Stable descending sort by count (`value_counts` ordering). -/
def sortCountDesc (l : List (String × Nat)) : List (String × Nat) :=
  l.foldl (fun acc x => insertCountDesc x acc) []

/-- Comparison placing larger means first and NaN means last
(`sort_values(ascending := False)`). -/
def meanGt (x y : Option Rat) : Bool :=
  match x, y with
  | some a, some b => decide (b < a)
  | some _, none => true
  | none, _ => false

/-- Insertion into a mean list sorted descending with NaN last. -/
def insertMeanDesc (x : String × Option Rat) :
    List (String × Option Rat) → List (String × Option Rat)
  | [] => [x]
  | y :: ys => if meanGt x.2 y.2 then x :: y :: ys else y :: insertMeanDesc x ys

/-- Stable descending sort of group means. -/
def sortMeanDesc (l : List (String × Option Rat)) : List (String × Option Rat) :=
  l.foldl (fun acc x => insertMeanDesc x acc) []

/-- Mean of a list of numbers; NaN (`none`) when the list is empty. -/
def meanOf (l : List Rat) : Option Rat :=
  if l.isEmpty then none else some (l.sum / (l.length : Rat))

/-- Ascending insertion of a rational into a sorted list. -/
def insertRat (q : Rat) : List Rat → List Rat
  | [] => [q]
  | x :: xs => if q ≤ x then q :: x :: xs else x :: insertRat q xs

/-- Ascending sort of rationals. -/
def sortRats (l : List Rat) : List Rat :=
  l.foldr insertRat []

/-- Pandas `Series.median` over the non-null values: NaN on an empty
series, the middle order statistic for odd length, the average of the two
middle order statistics for even length. -/
def medianOf (l : List Rat) : Option Rat :=
  let s := sortRats l
  let n := s.length
  if n = 0 then none
  else if n % 2 = 1 then s.get? (n / 2)
  else
    match s.get? (n / 2 - 1), s.get? (n / 2) with
    | some a, some b => some ((a + b) / 2)
    | _, _ => none

/-! ## Data model: the patient record table

A column either exists for the whole table or not (`Schema`); a present
column's cell is `Option String` with `none` for a missing value. Fields
of absent columns are normalised to fixed defaults by cleaning so that
whole-row equality (used by `drop_duplicates`) coincides with equality on
the present columns. -/

/-- Which of the optional columns the input table has. -/
structure Schema where
  hasName : Bool
  hasBlood : Bool
  hasCond : Bool
  hasDoctor : Bool
  hasHospital : Bool
  hasIns : Bool
  hasDate : Bool
  hasBilling : Bool
  hasAge : Bool
  hasGender : Bool
deriving DecidableEq, Repr

/-- One raw CSV row; `none` is a missing cell (NaN). -/
structure RawRow where
  name : Option String
  bloodType : Option String
  condition : Option String
  doctor : Option String
  hospital : Option String
  insurance : Option String
  date : Option String
  billing : Option String
  age : Option String
  gender : Option String
deriving DecidableEq, Repr

/-- The loaded table: schema plus rows. -/
structure RawTable where
  schema : Schema
  rows : List RawRow
deriving Repr

/-- A row after the type-coercion and text-cleaning steps
(script lines 28-52). -/
structure CRow where
  name : String
  bloodType : String
  condition : String
  doctor : String
  hospital : String
  insurance : String
  date : Option PDate
  billing : Option Rat
  age : Option Rat
  gender : String
deriving DecidableEq, Repr

/-! ## Cleaning and enrichment (script lines 25-78) -/

/-- Free-text column cleaning: `astype(str).str.strip()`. -/
def cleanText (cell : Option String) : String :=
  stripStr (astypeStr cell)

/-- Whole-cell categorical replacement `{"M": "Male", "F": "Female"}`. -/
def genderReplace (g : String) : String :=
  if g = "M" then "Male" else if g = "F" then "Female" else g

/-- Gender normalisation: `astype(str).str.strip().str.title()` then the
M/F replacement (script lines 45-47). -/
def cleanGender (cell : Option String) : String :=
  genderReplace (titleStr (stripStr (astypeStr cell)))

/-- Characters kept by the billing regex `[^0-9.\-]` replacement. -/
def billingKeep (c : Char) : Bool :=
  isDigitChar c || c = '.' || c = '-'

/-- Billing coercion: `astype(str)`, strip all characters outside
`[0-9.\-]`, then `to_numeric(errors := coerce)` (script lines 32-38). -/
def cleanBilling (cell : Option String) : Option Rat :=
  parseNum ((astypeStr cell).data.filter billingKeep)

/-- Age coercion: `to_numeric(errors := coerce)` (script line 42). -/
def cleanAge (cell : Option String) : Option Rat :=
  cell.bind (fun s => parseNum (stripL s.data))

/-- Date coercion: `to_datetime(errors := coerce)` (script line 29). -/
def cleanDate (cell : Option String) : Option PDate :=
  cell.bind parseDate

/-- Per-row cleaning; every transformation is guarded by the presence of
its column, and fields of absent columns get fixed defaults. The
`fillna("Unknown")` steps of script lines 59-64 are not represented
because they are no-ops: `astype(str)` has already turned every NaN in
the Gender / Insurance Provider / Blood Type columns into the plain
string `"nan"`/`"Nan"`, so those columns hold no NaN to fill. -/
def cleanRow (s : Schema) (r : RawRow) : CRow where
  name := if s.hasName then cleanText r.name else ""
  bloodType := if s.hasBlood then cleanText r.bloodType else ""
  condition := if s.hasCond then cleanText r.condition else ""
  doctor := if s.hasDoctor then cleanText r.doctor else ""
  hospital := if s.hasHospital then cleanText r.hospital else ""
  insurance := if s.hasIns then cleanText r.insurance else ""
  date := if s.hasDate then cleanDate r.date else none
  billing := if s.hasBilling then cleanBilling r.billing else none
  age := if s.hasAge then cleanAge r.age else none
  gender := if s.hasGender then cleanGender r.gender else ""

/-- Median imputation of Billing Amount (script lines 57-58): only when
the column exists and holds at least one NaN; the median is computed over
the non-null values before imputation, and `fillna(NaN)` (all values
unparseable) leaves the NaN in place. -/
def imputeBilling (s : Schema) (rows : List CRow) : List CRow :=
  if s.hasBilling && rows.any (fun r => r.billing.isNone) then
    let med := medianOf (rows.filterMap (fun r => r.billing))
    rows.map (fun r =>
      { r with billing := match r.billing with | some q => some q | none => med })
  else rows

/-- `pd.cut(Age, bins := [0, 18, 40, 60, 200], right := True,
include_lowest := True)` with the fixed labels (script lines 67-70);
NaN or out-of-range ages get no bucket. -/
def ageGroupOf : Option Rat → Option String
  | none => none
  | some a =>
    if 0 ≤ a ∧ a ≤ 18 then some "Child (0-18)"
    else if 18 < a ∧ a ≤ 40 then some "Adult (19-40)"
    else if 40 < a ∧ a ≤ 60 then some "Middle (41-60)"
    else if 60 < a ∧ a ≤ 200 then some "Senior (61+)"
    else none

/-- A cleaned-and-enriched row: the base row plus the derived columns of
script lines 67-74. -/
structure ERow where
  row : CRow
  ageGroup : Option String
  admissionYear : Option Nat
  admissionMonth : String
  monthName : Option String
deriving DecidableEq, Repr

/-- Derivation of the new columns (script lines 67-74). `dt.year` and
`strftime("%b")` give NaN on NaT, but `dt.to_period("M").astype(str)`
turns NaT into the literal string `"NaT"`. -/
def deriveRow (s : Schema) (r : CRow) : ERow where
  row := r
  ageGroup := if s.hasAge then ageGroupOf r.age else none
  admissionYear := r.date.map (fun d => d.year)
  admissionMonth := match r.date with | some d => fmtYM d | none => "NaT"
  monthName := r.date.map (fun d => monthAbbrev d.month)

/-- The whole cleaning-and-enrichment section (script lines 25-78):
coercion, dedup, imputation, then the derived columns. The accesses
`df["Date of Admission"]` on lines 72-74 are NOT guarded by a
column-existence check, so a table without that column raises KeyError
and the run aborts. -/
def cleanPhase (t : RawTable) : Except String (List ERow) :=
  let coerced := t.rows.map (cleanRow t.schema)
  let rows := imputeBilling t.schema (dedupKF coerced)
  if t.schema.hasDate then Except.ok (rows.map (deriveRow t.schema))
  else Except.error "KeyError: Date of Admission"

/-! ## Metrics (script lines 81-126) -/

/-- The single-row KPI table. -/
structure Kpi where
  totalPatients : Nat
  totalBilling : Rat
  averageBilling : Option Rat
deriving DecidableEq, Repr

/-- `value_counts()`: count per distinct value (first-seen order),
sorted descending by count. -/
def valueCounts (l : List String) : List (String × Nat) :=
  sortCountDesc ((dedupKF l).map (fun k => (k, l.count k)))

/-- `groupby(key)[Billing Amount].mean()` then
`sort_values(ascending := False)`: group keys ascending, mean of the
non-null billing values per group, then sorted descending by mean. -/
def avgByKey (pairs : List (String × Option Rat)) : List (String × Option Rat) :=
  sortMeanDesc ((sortStrAsc (dedupKF (pairs.map (fun p => p.1)))).map
    (fun k => (k, meanOf ((pairs.filter (fun p => decide (p.1 = k))).filterMap
      (fun p => p.2)))))

/-- Admissions by month (script lines 96-103): drop rows with a null
Date of Admission, group by Admission Month with a size per group
(groupby already sorts the keys ascending; the extra
`sort_values("Admission Month")` is the identity on that). -/
def monthlyOf (rows : List ERow) : List (String × Nat) :=
  let months := (rows.filter (fun e => e.row.date.isSome)).map
    (fun e => e.admissionMonth)
  (sortStrAsc (dedupKF months)).map (fun k => (k, months.count k))

/-- Everything the run writes: the cleaned table, the metric tables
(`none` when the guarded source column is absent and the CSV is not
produced), and the chart PNG file names. -/
structure Outputs where
  cleaned : List ERow
  kpi : Kpi
  condCounts : Option (List (String × Nat))
  monthly : List (String × Nat)
  avgBillCond : Option (List (String × Option Rat))
  bloodCounts : Option (List (String × Nat))
  avgBillBlood : Option (List (String × Option Rat))
  charts : List String
deriving DecidableEq, Repr

/-- The full pipeline (script lines 25-219). The KPI table (lines 84-88)
accesses `df["Billing Amount"]` without a guard, so a table lacking that
column raises KeyError there; all later uses of Billing Amount
(lines 107, 121, 188, 212) run only after the KPI step has succeeded.
Every other metric and chart is guarded by the presence of its source
column (for the age-group chart the guard `"Age Group" in df.columns`
holds exactly when the Age column existed, since line 70 is the only
place that creates Age Group). -/
def pipeline (t : RawTable) : Except String Outputs :=
  let s := t.schema
  match cleanPhase t with
  | Except.error e => Except.error e
  | Except.ok cleaned =>
    if s.hasBilling then
      Except.ok
        { cleaned := cleaned
          kpi :=
            { totalPatients := cleaned.length
              totalBilling := (cleaned.filterMap (fun e => e.row.billing)).sum
              averageBilling := meanOf (cleaned.filterMap (fun e => e.row.billing)) }
          condCounts :=
            if s.hasCond then some (valueCounts (cleaned.map (fun e => e.row.condition)))
            else none
          monthly := monthlyOf cleaned
          avgBillCond :=
            if s.hasCond then
              some (avgByKey (cleaned.map (fun e => (e.row.condition, e.row.billing))))
            else none
          bloodCounts :=
            if s.hasBlood then some (valueCounts (cleaned.map (fun e => e.row.bloodType)))
            else none
          avgBillBlood :=
            if s.hasBlood then
              some (avgByKey (cleaned.map (fun e => (e.row.bloodType, e.row.billing))))
            else none
          charts :=
            (if !(monthlyOf cleaned).isEmpty then ["admissions_over_time.png"] else []) ++
            (if s.hasCond then ["top10_medical_conditions.png"] else []) ++
            (if s.hasGender then ["gender_distribution.png"] else []) ++
            (if s.hasAge then ["age_group_distribution.png"] else []) ++
            (if s.hasCond then ["avg_billing_by_condition.png"] else []) ++
            (if s.hasIns then ["insurance_provider_share.png"] else []) ++
            (if s.hasBlood then
              ["blood_type_distribution.png", "avg_billing_by_bloodtype.png"]
             else []) }
    else Except.error "KeyError: Billing Amount"

/-- The error message of a failed run, `none` on success. -/
def errOf {α : Type} : Except String α → Option String
  | Except.error e => some e
  | Except.ok _ => none

/-- The cleaned rows a successful run produces (the payload of
`cleanPhase` when the Date of Admission column exists). -/
def cleanedRowsOf (t : RawTable) : List ERow :=
  (imputeBilling t.schema (dedupKF (t.rows.map (cleanRow t.schema)))).map
    (deriveRow t.schema)

/-- The outputs of a successful run (shown equal to `pipeline t` whenever
the two unguarded columns are present, see `pipeline_eq_outputsOf`). -/
def outputsOf (t : RawTable) : Outputs :=
  let s := t.schema
  let cleaned := cleanedRowsOf t
  { cleaned := cleaned
    kpi :=
      { totalPatients := cleaned.length
        totalBilling := (cleaned.filterMap (fun e => e.row.billing)).sum
        averageBilling := meanOf (cleaned.filterMap (fun e => e.row.billing)) }
    condCounts :=
      if s.hasCond then some (valueCounts (cleaned.map (fun e => e.row.condition)))
      else none
    monthly := monthlyOf cleaned
    avgBillCond :=
      if s.hasCond then
        some (avgByKey (cleaned.map (fun e => (e.row.condition, e.row.billing))))
      else none
    bloodCounts :=
      if s.hasBlood then some (valueCounts (cleaned.map (fun e => e.row.bloodType)))
      else none
    avgBillBlood :=
      if s.hasBlood then
        some (avgByKey (cleaned.map (fun e => (e.row.bloodType, e.row.billing))))
      else none
    charts :=
      (if !(monthlyOf cleaned).isEmpty then ["admissions_over_time.png"] else []) ++
      (if s.hasCond then ["top10_medical_conditions.png"] else []) ++
      (if s.hasGender then ["gender_distribution.png"] else []) ++
      (if s.hasAge then ["age_group_distribution.png"] else []) ++
      (if s.hasCond then ["avg_billing_by_condition.png"] else []) ++
      (if s.hasIns then ["insurance_provider_share.png"] else []) ++
      (if s.hasBlood then
        ["blood_type_distribution.png", "avg_billing_by_bloodtype.png"]
       else []) }

/-! ## Re-running the cleaning on the cleaned CSV output

For the round-trip property the cleaned CSV is reloaded and the cleaning
section re-runs. Loading the CSV recovers the same semantic values (the
claim explicitly excepts type/format representation differences, and every
number in play is a finite decimal, so decimal text round-trips): the
re-run's `to_datetime` / `to_numeric` / billing coercions on the already
typed Date of Admission, Age and Billing Amount columns are the identity,
while the string columns are genuinely re-stripped and Gender re-processed.
The derived columns produced by the first run are present in the reloaded
table: they are not in the fixed text-column list of script line 50, so
coercion leaves them alone, `drop_duplicates` compares them too, and
lines 67-74 overwrite them at the end. -/

/-- Second-run coercion of one cleaned row (script lines 28-52 applied to
the reloaded cleaned CSV). -/
def recleanCRow (s : Schema) (r : CRow) : CRow where
  name := if s.hasName then stripStr r.name else r.name
  bloodType := if s.hasBlood then stripStr r.bloodType else r.bloodType
  condition := if s.hasCond then stripStr r.condition else r.condition
  doctor := if s.hasDoctor then stripStr r.doctor else r.doctor
  hospital := if s.hasHospital then stripStr r.hospital else r.hospital
  insurance := if s.hasIns then stripStr r.insurance else r.insurance
  date := r.date
  billing := r.billing
  age := r.age
  gender := if s.hasGender then genderReplace (titleStr (stripStr r.gender)) else r.gender

/-- Second-run coercion of a full cleaned row: the derived columns are
not touched by any coercion step. -/
def recleanERow (s : Schema) (e : ERow) : ERow :=
  { e with row := recleanCRow s e.row }

/-- Billing imputation (script lines 57-58) on the reloaded table. -/
def imputeBillingE (s : Schema) (rows : List ERow) : List ERow :=
  if s.hasBilling && rows.any (fun e => e.row.billing.isNone) then
    let med := medianOf (rows.filterMap (fun e => e.row.billing))
    rows.map (fun e =>
      { e with row := { e.row with
          billing := match e.row.billing with | some q => some q | none => med } })
  else rows

/-- Re-running the whole cleaning section on the reloaded cleaned table:
coercion, `drop_duplicates` over all columns including the derived ones,
imputation, then lines 67-74 overwrite the derived columns. -/
def reclean (s : Schema) (rows : List ERow) : List ERow :=
  (imputeBillingE s (dedupKF (rows.map (recleanERow s)))).map
    (fun e => deriveRow s e.row)

/-! ## Chart rendering (script lines 131-159)

Each helper is straight-line matplotlib code with no try/finally:
`plt.figure()`, drawing, `plt.tight_layout()`, `plt.savefig(path, dpi=150)`
and finally `plt.close()`. The trace of figure-state events is recorded;
when `savefig` raises, execution stops there, the exception propagates
(second component `some message`) and `plt.close()` never runs. -/

/-- Figure-state events of one chart-rendering call. -/
inductive FigStep where
  | create
  | draw
  | save (path : String) (dpi : Nat)
  | close
deriving DecidableEq, Repr

/-- `save_bar` (script lines 131-142): `saveFails` says whether
`plt.savefig` raises (for example the output directory vanished or the
disk is full). -/
def save_bar (saveFails : Bool) (path : String) : List FigStep × Option String :=
  if saveFails then ([FigStep.create, FigStep.draw], some "savefig raised")
  else ([FigStep.create, FigStep.draw, FigStep.save path 150, FigStep.close], none)

/-- `save_pie` (script lines 144-150). -/
def save_pie (saveFails : Bool) (path : String) : List FigStep × Option String :=
  if saveFails then ([FigStep.create, FigStep.draw], some "savefig raised")
  else ([FigStep.create, FigStep.draw, FigStep.save path 150, FigStep.close], none)

/-- `save_line` (script lines 152-159). -/
def save_line (saveFails : Bool) (path : String) : List FigStep × Option String :=
  if saveFails then ([FigStep.create, FigStep.draw], some "savefig raised")
  else ([FigStep.create, FigStep.draw, FigStep.save path 150, FigStep.close], none)

/-! ## Concrete tables used in the theorems -/

/-- A row with every cell missing. -/
def blankRow : RawRow :=
  { name := none, bloodType := none, condition := none, doctor := none,
    hospital := none, insurance := none, date := none, billing := none,
    age := none, gender := none }

/-- A schema with every optional column present. -/
def allSchema : Schema :=
  { hasName := true, hasBlood := true, hasCond := true, hasDoctor := true,
    hasHospital := true, hasIns := true, hasDate := true, hasBilling := true,
    hasAge := true, hasGender := true }

/-- Table lacking only the Date of Admission column. -/
def tNoDate : RawTable :=
  { schema := { allSchema with hasDate := false }, rows := [blankRow] }

/-- Table lacking only the Billing Amount column. -/
def tNoBilling : RawTable :=
  { schema := { allSchema with hasBilling := false }
    rows :=
      [ { blankRow with
          name := some "A"
          date := some "2023-01-01" } ] }

/-- Table lacking only the Blood Type column. -/
def tNoBlood : RawTable :=
  { schema := { allSchema with hasBlood := false }
    rows :=
      [ { blankRow with
          name := some "A"
          billing := some "10"
          date := some "2023-01-01"
          gender := some "M"
          age := some "30" } ] }

/-- One row whose Gender cell is missing. -/
def tGenderNull : RawTable :=
  { schema := allSchema
    rows :=
      [ { blankRow with
          date := some "2023-01-01"
          billing := some "5" } ] }

/-- One row whose Billing Amount is unparseable, with no parseable value
anywhere in the column. -/
def tBillAllBad : RawTable :=
  { schema := allSchema
    rows :=
      [ { blankRow with
          date := some "2023-01-01"
          billing := some "abc" } ] }

/-- A row with unparseable Billing Amount. -/
def rBillBad : RawRow :=
  { blankRow with
    name := some "A"
    date := some "2023-01-01"
    billing := some "abc" }

/-- A row whose Billing Amount parses to 10. -/
def rBill10 : RawRow :=
  { blankRow with
    name := some "B"
    date := some "2023-01-01"
    billing := some "10" }

/-- A row whose Billing Amount parses to 20. -/
def rBill20 : RawRow :=
  { blankRow with
    name := some "C"
    date := some "2023-01-01"
    billing := some "20" }

/-- Three rows: one unparseable Billing Amount and two parseable ones. -/
def tBillMix : RawTable :=
  { schema := allSchema, rows := [rBillBad, rBill10, rBill20] }

/-- One row whose Date of Admission cell is missing. -/
def tDateNull : RawTable :=
  { schema := allSchema
    rows :=
      [ { blankRow with
          billing := some "5" } ] }

/-- Three rows with admission dates in 2023-01, 2023-01 and 2023-02. -/
def tMonths : RawTable :=
  { schema := allSchema
    rows :=
      [ { blankRow with
          name := some "A"
          date := some "2023-01-05"
          billing := some "1" },
        { blankRow with
          name := some "B"
          date := some "2023-01-20"
          billing := some "1" },
        { blankRow with
          name := some "C"
          date := some "2023-02-03"
          billing := some "1" } ] }

/-- The row that `tTwins` holds twice. -/
def rTwin : RawRow :=
  { blankRow with
    name := some "A"
    date := some "2023-01-01"
    billing := some "5" }

/-- Two exactly identical rows. -/
def tTwins : RawTable :=
  { schema := allSchema, rows := [rTwin, rTwin] }

/-- A cleaned row with every cell at its missing-value default. -/
def blankCRow : CRow :=
  { name := "", bloodType := "", condition := "", doctor := "", hospital := "",
    insurance := "", date := none, billing := none, age := none, gender := "" }

/-- Two rows that differ only in Billing Amount (`"abc"` versus `"20"`):
imputation maps both to the median 20 and makes them identical. -/
def tMergeDup : RawTable :=
  { schema :=
      { allSchema with
        hasBlood := false
        hasCond := false
        hasDoctor := false
        hasHospital := false
        hasIns := false
        hasAge := false
        hasGender := false }
    rows :=
      [ { blankRow with
          name := some "A"
          billing := some "abc"
          date := some "2023-01-01" },
        { blankRow with
          name := some "A"
          billing := some "20"
          date := some "2023-01-01" } ] }

/-! ## Spec-side definitions for refinement comparisons -/

/-- Following the spec's words for the derived Admission Month column:
`"YYYY-MM"` derived from Date of Admission, a null date propagating as a
null (to be compared with the code's `deriveRow`, which yields the
non-null string `"NaT"`). -/
def specAdmissionMonth (d : Option PDate) : Option String :=
  d.map fmtYM

/-- Following the spec's words for the admissions-by-month table: exactly
the rows with a non-null Admission Month, grouped by month with a count
per month, sorted ascending by the month string. In the code's cleaned
table the Admission Month column is a string column with no nulls (a null
date produced the string `"NaT"`), so no row is excluded. -/
def specMonthly (rows : List ERow) : List (String × Nat) :=
  let months := rows.map (fun e => e.admissionMonth)
  (sortStrAsc (dedupKF months)).map (fun k => (k, months.count k))

/-! ## Character lemmas -/

attribute [local semireducible] Rat.add Rat.mul Rat.inv Rat.sub

theorem toNat_charOfNat (n : Nat) (h : n < 55296) : (Char.ofNat n).toNat = n := by
  rw [Char.ofNat, dif_pos (Or.inl h : n.isValidChar)]
  simp [Char.ofNatAux, Char.toNat, UInt32.toNat]

theorem toNat_upChar (c : Char) :
    (upChar c).toNat = if 97 ≤ c.toNat ∧ c.toNat ≤ 122 then c.toNat - 32 else c.toNat := by
  unfold upChar
  by_cases hc : 97 ≤ c.toNat ∧ c.toNat ≤ 122
  · rw [if_pos hc, if_pos hc]
    exact toNat_charOfNat _ (by omega)
  · rw [if_neg hc, if_neg hc]

theorem toNat_lowChar (c : Char) :
    (lowChar c).toNat = if 65 ≤ c.toNat ∧ c.toNat ≤ 90 then c.toNat + 32 else c.toNat := by
  unfold lowChar
  by_cases hc : 65 ≤ c.toNat ∧ c.toNat ≤ 90
  · rw [if_pos hc, if_pos hc]
    exact toNat_charOfNat _ (by omega)
  · rw [if_neg hc, if_neg hc]

theorem upChar_eq_self {c : Char} (h : ¬(97 ≤ c.toNat ∧ c.toNat ≤ 122)) :
    upChar c = c := by
  unfold upChar
  rw [if_neg h]

theorem lowChar_eq_self {c : Char} (h : ¬(65 ≤ c.toNat ∧ c.toNat ≤ 90)) :
    lowChar c = c := by
  unfold lowChar
  rw [if_neg h]

theorem upChar_upChar (c : Char) : upChar (upChar c) = upChar c := by
  apply upChar_eq_self
  have ht := toNat_upChar c
  by_cases hc : 97 ≤ c.toNat ∧ c.toNat ≤ 122
  · rw [if_pos hc] at ht
    omega
  · rw [if_neg hc] at ht
    omega

theorem lowChar_lowChar (c : Char) : lowChar (lowChar c) = lowChar c := by
  apply lowChar_eq_self
  have ht := toNat_lowChar c
  by_cases hc : 65 ≤ c.toNat ∧ c.toNat ≤ 90
  · rw [if_pos hc] at ht
    omega
  · rw [if_neg hc] at ht
    omega

theorem isLetter_iff (c : Char) :
    isLetter c = true ↔ (65 ≤ c.toNat ∧ c.toNat ≤ 90) ∨ (97 ≤ c.toNat ∧ c.toNat ≤ 122) := by
  simp [isLetter, isAsciiUpper, isAsciiLower]

theorem isLetter_upChar {c : Char} (h : isLetter c = true) :
    isLetter (upChar c) = true := by
  rw [isLetter_iff] at h ⊢
  have ht := toNat_upChar c
  by_cases hc : 97 ≤ c.toNat ∧ c.toNat ≤ 122
  · rw [if_pos hc] at ht
    omega
  · rw [if_neg hc] at ht
    omega

theorem isLetter_lowChar {c : Char} (h : isLetter c = true) :
    isLetter (lowChar c) = true := by
  rw [isLetter_iff] at h ⊢
  have ht := toNat_lowChar c
  by_cases hc : 65 ≤ c.toNat ∧ c.toNat ≤ 90
  · rw [if_pos hc] at ht
    omega
  · rw [if_neg hc] at ht
    omega

theorem wsChar_iff (c : Char) :
    wsChar c = true ↔ c.toNat = 32 ∨ c.toNat = 9 ∨ c.toNat = 10 ∨ c.toNat = 11 ∨
      c.toNat = 12 ∨ c.toNat = 13 := by
  simp only [wsChar, Bool.or_eq_true, decide_eq_true_eq]
  tauto

theorem not_wsChar_of_isLetter {c : Char} (h : isLetter c = true) :
    wsChar c = false := by
  rw [isLetter_iff] at h
  rw [Bool.eq_false_iff]
  intro hw
  rw [wsChar_iff] at hw
  omega

theorem not_isLetter_of_wsChar {c : Char} (h : wsChar c = true) :
    isLetter c = false := by
  rw [Bool.eq_false_iff]
  intro hl
  rw [not_wsChar_of_isLetter hl] at h
  cases h

/-! ## Strip and title lemmas -/

theorem data_mk (l : List Char) : (String.mk l).data = l := rfl

theorem lstripL_cons_of_not_ws {c : Char} (h : wsChar c = false) (t : List Char) :
    lstripL (c :: t) = c :: t := by
  simp [lstripL, List.dropWhile_cons, h]

theorem lstripL_lstripL (l : List Char) : lstripL (lstripL l) = lstripL l := by
  induction l with
  | nil => rfl
  | cons c cs ih =>
    by_cases hc : wsChar c = true
    · simpa [lstripL, List.dropWhile_cons, hc] using ih
    · simp [lstripL, List.dropWhile_cons, hc]

theorem lstripL_head {l : List Char} {c : Char} {t : List Char}
    (h : lstripL l = c :: t) : wsChar c = false := by
  induction l with
  | nil => cases h
  | cons d ds ih =>
    by_cases hd : wsChar d = true
    · apply ih
      simpa [lstripL, List.dropWhile_cons, hd] using h
    · simp only [lstripL, List.dropWhile_cons, hd, if_false, Bool.false_eq_true] at h
      cases h
      simpa using hd

theorem rstripL_cons (c : Char) (cs : List Char) :
    rstripL (c :: cs) =
      match rstripL cs with
      | [] => if wsChar c then [] else [c]
      | d :: ds => c :: d :: ds := rfl

theorem rstripL_cons_nil {cs : List Char} (h : rstripL cs = []) (c : Char) :
    rstripL (c :: cs) = if wsChar c then [] else [c] := by
  rw [rstripL_cons, h]

theorem rstripL_cons_cons {cs : List Char} {d : Char} {ds : List Char}
    (h : rstripL cs = d :: ds) (c : Char) :
    rstripL (c :: cs) = c :: d :: ds := by
  rw [rstripL_cons, h]

theorem titleGo_cons (b : Bool) (c : Char) (cs : List Char) :
    titleGo b (c :: cs) =
      if isLetter c then (if b then lowChar c else upChar c) :: titleGo true cs
      else c :: titleGo false cs := rfl

theorem rstripL_head (c : Char) (cs : List Char) :
    rstripL (c :: cs) = [] ∨ ∃ t, rstripL (c :: cs) = c :: t := by
  cases h : rstripL cs with
  | nil =>
    by_cases hc : wsChar c = true
    · left
      simp [rstripL, h, hc]
    · right
      exact ⟨[], by simp [rstripL, h, hc]⟩
  | cons d ds =>
    right
    exact ⟨d :: ds, by simp [rstripL, h]⟩

theorem rstripL_rstripL (l : List Char) : rstripL (rstripL l) = rstripL l := by
  induction l with
  | nil => rfl
  | cons c cs ih =>
    cases h : rstripL cs with
    | nil =>
      by_cases hc : wsChar c = true
      · simp [rstripL, h, hc]
      · simp [rstripL, h, hc]
    | cons d ds =>
      have ih' := ih
      rw [h] at ih'
      rw [rstripL_cons_cons h, rstripL_cons_cons ih']

theorem lstripL_rstripL_lstripL (l : List Char) :
    lstripL (rstripL (lstripL l)) = rstripL (lstripL l) := by
  cases h : lstripL l with
  | nil => rfl
  | cons c t =>
    have hc : wsChar c = false := lstripL_head h
    rcases rstripL_head c t with h2 | ⟨u, h2⟩
    · rw [h2]
      rfl
    · rw [h2]
      exact lstripL_cons_of_not_ws hc u

theorem stripL_stripL (l : List Char) : stripL (stripL l) = stripL l := by
  unfold stripL
  rw [lstripL_rstripL_lstripL, rstripL_rstripL]

theorem titleGo_eq_nil_iff (b : Bool) (l : List Char) : titleGo b l = [] ↔ l = [] := by
  cases l with
  | nil => simp [titleGo]
  | cons c cs => by_cases hc : isLetter c = true <;> simp [titleGo, hc]

theorem titleGo_titleGo : ∀ (l : List Char) (b : Bool),
    titleGo b (titleGo b l) = titleGo b l := by
  intro l
  induction l with
  | nil => intro b; rfl
  | cons c cs ih =>
    intro b
    by_cases hc : isLetter c = true
    · cases b with
      | false =>
        have h1 : titleGo false (c :: cs) = upChar c :: titleGo true cs := by
          simp [titleGo, hc]
        rw [h1]
        have h2 : isLetter (upChar c) = true := isLetter_upChar hc
        have h3 : titleGo false (upChar c :: titleGo true cs)
            = upChar (upChar c) :: titleGo true (titleGo true cs) := by
          simp [titleGo, h2]
        rw [h3, upChar_upChar, ih true]
      | true =>
        have h1 : titleGo true (c :: cs) = lowChar c :: titleGo true cs := by
          simp [titleGo, hc]
        rw [h1]
        have h2 : isLetter (lowChar c) = true := isLetter_lowChar hc
        have h3 : titleGo true (lowChar c :: titleGo true cs)
            = lowChar (lowChar c) :: titleGo true (titleGo true cs) := by
          simp [titleGo, h2]
        rw [h3, lowChar_lowChar, ih true]
    · have hc' : isLetter c = false := by simpa using hc
      have h1 : titleGo b (c :: cs) = c :: titleGo false cs := by
        simp [titleGo, hc']
      rw [h1]
      have h2 : titleGo b (c :: titleGo false cs) = c :: titleGo false (titleGo false cs) := by
        simp [titleGo, hc']
      rw [h2, ih false]

theorem lstripL_titleGo (l : List Char) :
    lstripL (titleGo false l) = titleGo false (lstripL l) := by
  induction l with
  | nil => rfl
  | cons c cs ih =>
    by_cases hc : isLetter c = true
    · have h1 : wsChar (upChar c) = false := not_wsChar_of_isLetter (isLetter_upChar hc)
      have h2 : wsChar c = false := not_wsChar_of_isLetter hc
      simp [titleGo, hc, lstripL, List.dropWhile_cons, h1, h2]
    · have hc' : isLetter c = false := by simpa using hc
      by_cases hw : wsChar c = true
      · simpa [titleGo, hc', lstripL, List.dropWhile_cons, hw] using ih
      · simp [titleGo, hc', lstripL, List.dropWhile_cons, hw]

theorem rstripL_titleGo : ∀ (l : List Char) (b : Bool),
    rstripL (titleGo b l) = titleGo b (rstripL l) := by
  intro l
  induction l with
  | nil => intro b; rfl
  | cons c cs ih =>
    intro b
    by_cases hc : isLetter c = true
    · have hm : ∀ b' : Bool, wsChar (if b' then lowChar c else upChar c) = false := by
        intro b'
        cases b' with
        | false => exact not_wsChar_of_isLetter (isLetter_upChar hc)
        | true => exact not_wsChar_of_isLetter (isLetter_lowChar hc)
      have hcw : wsChar c = false := not_wsChar_of_isLetter hc
      cases h : rstripL cs with
      | nil =>
        have h2 : rstripL (titleGo true cs) = [] := by
          rw [ih true, h]
          rfl
        rw [titleGo_cons b c cs, if_pos hc, rstripL_cons_nil h2, hm b,
          if_neg Bool.false_ne_true, rstripL_cons_nil h, hcw,
          if_neg Bool.false_ne_true, titleGo_cons, if_pos hc]
        rfl
      | cons d ds =>
        have h2 := ih true
        rw [h] at h2
        cases h3 : titleGo true (d :: ds) with
        | nil =>
          rw [titleGo_eq_nil_iff] at h3
          cases h3
        | cons e es =>
          rw [h3] at h2
          rw [titleGo_cons b c cs, if_pos hc, rstripL_cons_cons h2,
            rstripL_cons_cons h, titleGo_cons, if_pos hc, h3]
    · have hc' : isLetter c = false := by simpa using hc
      have hcn : ¬ (isLetter c = true) := by simp [hc']
      cases h : rstripL cs with
      | nil =>
        have h2 : rstripL (titleGo false cs) = [] := by
          rw [ih false, h]
          rfl
        rw [titleGo_cons b c cs, if_neg hcn, rstripL_cons_nil h2, rstripL_cons_nil h]
        by_cases hw : wsChar c = true
        · rw [if_pos hw]
          rfl
        · rw [if_neg hw, titleGo_cons, if_neg hcn]
          rfl
      | cons d ds =>
        have h2 := ih false
        rw [h] at h2
        cases h3 : titleGo false (d :: ds) with
        | nil =>
          rw [titleGo_eq_nil_iff] at h3
          cases h3
        | cons e es =>
          rw [h3] at h2
          rw [titleGo_cons b c cs, if_neg hcn, rstripL_cons_cons h2,
            rstripL_cons_cons h, titleGo_cons, if_neg hcn, h3]

theorem stripL_titleGo_stripL (l : List Char) :
    stripL (titleGo false (stripL l)) = titleGo false (stripL l) := by
  unfold stripL
  rw [lstripL_titleGo, lstripL_rstripL_lstripL, rstripL_titleGo, rstripL_rstripL]

theorem stripStr_stripStr (s : String) : stripStr (stripStr s) = stripStr s := by
  unfold stripStr
  rw [data_mk, stripL_stripL]

theorem stripStr_titleStr_stripStr (s : String) :
    stripStr (titleStr (stripStr s)) = titleStr (stripStr s) := by
  unfold stripStr titleStr
  rw [data_mk, data_mk, stripL_titleGo_stripL]

theorem titleStr_titleStr (s : String) : titleStr (titleStr s) = titleStr s := by
  unfold titleStr
  rw [data_mk, titleGo_titleGo]

/-- The Gender normalisation of script lines 45-47 is idempotent. -/
theorem genderNorm_idem (x : String) :
    genderReplace (titleStr (stripStr (genderReplace (titleStr (stripStr x)))))
      = genderReplace (titleStr (stripStr x)) := by
  by_cases h1 : titleStr (stripStr x) = "M"
  · rw [h1]
    decide
  · by_cases h2 : titleStr (stripStr x) = "F"
    · rw [h2]
      decide
    · have hrep : genderReplace (titleStr (stripStr x)) = titleStr (stripStr x) := by
        unfold genderReplace
        rw [if_neg h1, if_neg h2]
      rw [hrep]
      have hs : stripStr (titleStr (stripStr x)) = titleStr (stripStr x) :=
        stripStr_titleStr_stripStr x
      rw [hs]
      have ht : titleStr (titleStr (stripStr x)) = titleStr (stripStr x) := by
        rw [titleStr_titleStr]
      rw [ht, hrep]

/-! ## Deduplication and median lemmas -/

theorem mem_dedupAcc {α : Type} [DecidableEq α] (y : α) :
    ∀ (l seen : List α), y ∈ dedupAcc seen l ↔ y ∈ l ∧ y ∉ seen := by
  intro l
  induction l with
  | nil =>
    intro seen
    simp [dedupAcc]
  | cons x xs ih =>
    intro seen
    by_cases hx : x ∈ seen
    · rw [dedupAcc, if_pos hx, ih seen]
      by_cases hyx : y = x
      · subst hyx
        simp [hx]
      · simp [List.mem_cons, hyx]
    · rw [dedupAcc, if_neg hx, List.mem_cons, ih (x :: seen)]
      by_cases hyx : y = x
      · subst hyx
        simp [hx]
      · simp only [List.mem_cons, hyx, false_or]

theorem mem_dedupKF {α : Type} [DecidableEq α] (x : α) (l : List α) :
    x ∈ dedupKF l ↔ x ∈ l := by
  unfold dedupKF
  rw [mem_dedupAcc]
  simp

theorem nodup_dedupAcc {α : Type} [DecidableEq α] :
    ∀ (l seen : List α), (dedupAcc seen l).Nodup := by
  intro l
  induction l with
  | nil =>
    intro seen
    exact List.nodup_nil
  | cons x xs ih =>
    intro seen
    by_cases hx : x ∈ seen
    · rw [dedupAcc, if_pos hx]
      exact ih seen
    · rw [dedupAcc, if_neg hx]
      refine List.Nodup.cons ?_ (ih (x :: seen))
      rw [mem_dedupAcc]
      rintro ⟨_, h2⟩
      exact h2 (List.mem_cons_self x seen)

theorem nodup_dedupKF {α : Type} [DecidableEq α] (l : List α) :
    (dedupKF l).Nodup :=
  nodup_dedupAcc l []

theorem count_dedupKF {α : Type} [DecidableEq α] (x : α) (l : List α) :
    (dedupKF l).count x = if x ∈ l then 1 else 0 := by
  by_cases h : x ∈ l
  · rw [if_pos h]
    exact List.count_eq_one_of_mem (nodup_dedupKF l) ((mem_dedupKF x l).mpr h)
  · rw [if_neg h]
    rw [List.count_eq_zero]
    rw [mem_dedupKF]
    exact h

theorem dedupAcc_eq_self {α : Type} [DecidableEq α] :
    ∀ (l seen : List α), l.Nodup → (∀ a ∈ l, a ∉ seen) → dedupAcc seen l = l := by
  intro l
  induction l with
  | nil =>
    intro seen _ _
    rfl
  | cons x xs ih =>
    intro seen hnd hdisj
    have hx : x ∉ seen := hdisj x (List.mem_cons_self x xs)
    rw [dedupAcc, if_neg hx]
    rw [ih (x :: seen) (List.nodup_cons.mp hnd).2]
    intro a ha
    rw [List.mem_cons]
    rintro (h | h)
    · exact (List.nodup_cons.mp hnd).1 (h ▸ ha)
    · exact hdisj a (List.mem_cons_of_mem x ha) h

theorem dedupKF_eq_self_of_nodup {α : Type} [DecidableEq α] (l : List α)
    (h : l.Nodup) : dedupKF l = l :=
  dedupAcc_eq_self l [] h (fun a _ => List.not_mem_nil a)

theorem dedupAcc_map_injective {α β : Type} [DecidableEq α] [DecidableEq β]
    {f : α → β} (hf : Function.Injective f) :
    ∀ (l seen : List α), dedupAcc (seen.map f) (l.map f) = (dedupAcc seen l).map f := by
  intro l
  induction l with
  | nil =>
    intro seen
    rfl
  | cons x xs ih =>
    intro seen
    have hmem : f x ∈ seen.map f ↔ x ∈ seen := by
      constructor
      · intro h
        rcases List.mem_map.mp h with ⟨a, ha, hfa⟩
        exact (hf hfa) ▸ ha
      · exact List.mem_map_of_mem f
    rw [List.map_cons]
    by_cases hx : x ∈ seen
    · rw [dedupAcc, if_pos (hmem.mpr hx), dedupAcc, if_pos hx]
      exact ih seen
    · rw [dedupAcc, if_neg (fun h => hx (hmem.mp h)), dedupAcc, if_neg hx,
        List.map_cons]
      have := ih (x :: seen)
      rw [List.map_cons] at this
      rw [this]

theorem dedupKF_map_injective {α β : Type} [DecidableEq α] [DecidableEq β]
    {f : α → β} (hf : Function.Injective f) (l : List α) :
    dedupKF (l.map f) = (dedupKF l).map f :=
  dedupAcc_map_injective hf l []

theorem map_self {α : Type} {f : α → α} :
    ∀ l : List α, (∀ a ∈ l, f a = a) → l.map f = l := by
  intro l
  induction l with
  | nil => intro _; rfl
  | cons a as ih =>
    intro h
    rw [List.map_cons, h a (List.mem_cons_self a as),
      ih (fun b hb => h b (List.mem_cons_of_mem a hb))]

theorem length_insertRat (q : Rat) : ∀ l : List Rat, (insertRat q l).length = l.length + 1 := by
  intro l
  induction l with
  | nil => rfl
  | cons x xs ih =>
    rw [insertRat]
    by_cases h : q ≤ x
    · rw [if_pos h]
      rfl
    · rw [if_neg h, List.length_cons, ih, List.length_cons]

theorem length_sortRats (l : List Rat) : (sortRats l).length = l.length := by
  induction l with
  | nil => rfl
  | cons x xs ih =>
    show (insertRat x (sortRats xs)).length = xs.length + 1
    rw [length_insertRat, ih]

theorem medianOf_isSome {l : List Rat} (h : l ≠ []) : (medianOf l).isSome = true := by
  unfold medianOf
  have hn : (sortRats l).length = l.length := length_sortRats l
  have hpos : 0 < l.length := List.length_pos.mpr h
  rw [if_neg (by omega : ¬ (sortRats l).length = 0)]
  by_cases hodd : (sortRats l).length % 2 = 1
  · rw [if_pos hodd]
    cases hq : (sortRats l).get? ((sortRats l).length / 2) with
    | none =>
      rw [List.get?_eq_none] at hq
      omega
    | some a => rfl
  · rw [if_neg hodd]
    have h2 : 2 ≤ (sortRats l).length := by omega
    cases hq1 : (sortRats l).get? ((sortRats l).length / 2 - 1) with
    | none =>
      rw [List.get?_eq_none] at hq1
      omega
    | some a =>
      cases hq2 : (sortRats l).get? ((sortRats l).length / 2) with
      | none =>
        rw [List.get?_eq_none] at hq2
        omega
      | some b => rfl

theorem medianOf_eq_none_iff {l : List Rat} : medianOf l = none ↔ l = [] := by
  constructor
  · intro h
    by_contra hne
    have := medianOf_isSome hne
    rw [h] at this
    cases this
  · rintro rfl
    rfl

/-! ## Pipeline-level helper lemmas -/

theorem mem_ite_nil {x : String} {b : Bool} {l : List String} :
    (x ∈ if b then l else []) ↔ b = true ∧ x ∈ l := by
  cases b <;> simp

/-- Characterisation of the billing imputation when the column exists:
every null is filled with the pre-imputation median of the non-null
values (which is itself NaN when no value is non-null, leaving the null
in place). -/
theorem imputeBilling_char (s : Schema) (rows : List CRow) (hs : s.hasBilling = true) :
    imputeBilling s rows = rows.map (fun r =>
      { r with billing := match r.billing with
          | some q => some q
          | none => medianOf (rows.filterMap (fun r => r.billing)) }) := by
  unfold imputeBilling
  cases hany : rows.any (fun r => r.billing.isNone) with
  | true =>
    rw [hs]
    rfl
  | false =>
    rw [hs]
    have hall : ∀ r ∈ rows, r.billing ≠ none := by
      intro r hr
      have := List.any_eq_false.mp hany r hr
      simpa using this
    simp only [Bool.and_false, Bool.false_eq_true, if_false]
    refine (map_self rows ?_).symm
    intro r hr
    cases hb : r.billing with
    | none => exact absurd hb (hall r hr)
    | some q =>
      show { r with billing := some q } = r
      rw [← hb]

theorem length_imputeBilling (s : Schema) (rows : List CRow) :
    (imputeBilling s rows).length = rows.length := by
  unfold imputeBilling
  cases hc : (s.hasBilling && rows.any fun r => r.billing.isNone) with
  | true =>
    rw [if_pos rfl]
    exact List.length_map rows _
  | false =>
    rw [if_neg Bool.false_ne_true]

/-- The billing imputation touches only the Billing Amount field: every
output row agrees with some input row on all other fields. -/
theorem imputeBilling_fields (s : Schema) (rows : List CRow) (m : CRow)
    (hm : m ∈ imputeBilling s rows) :
    ∃ c ∈ rows, m.name = c.name ∧ m.bloodType = c.bloodType
      ∧ m.condition = c.condition ∧ m.doctor = c.doctor ∧ m.hospital = c.hospital
      ∧ m.insurance = c.insurance ∧ m.date = c.date ∧ m.age = c.age
      ∧ m.gender = c.gender := by
  unfold imputeBilling at hm
  cases hc : (s.hasBilling && rows.any fun r => r.billing.isNone) with
  | true =>
    rw [hc, if_pos rfl] at hm
    rcases List.mem_map.mp hm with ⟨c, hcm, rfl⟩
    exact ⟨c, hcm, rfl, rfl, rfl, rfl, rfl, rfl, rfl, rfl, rfl⟩
  | false =>
    rw [hc, if_neg Bool.false_ne_true] at hm
    exact ⟨m, hm, rfl, rfl, rfl, rfl, rfl, rfl, rfl, rfl, rfl⟩

/-- After the billing imputation, if any row still has a null Billing
Amount (median of an all-null column is NaN) then every row does. -/
theorem imputeBilling_allNone (s : Schema) (rows : List CRow)
    (hs : s.hasBilling = true) (m : CRow) (hm : m ∈ imputeBilling s rows)
    (hnone : m.billing = none) :
    ∀ m' ∈ imputeBilling s rows, m'.billing = none := by
  rw [imputeBilling_char s rows hs] at hm ⊢
  rcases List.mem_map.mp hm with ⟨c, hcm, rfl⟩
  have hmed : medianOf (rows.filterMap (fun r => r.billing)) = none := by
    cases hb : c.billing with
    | none =>
      simp only [hb] at hnone
      exact hnone
    | some q =>
      simp only [hb] at hnone
      cases hnone
  have hnil : rows.filterMap (fun r => r.billing) = [] :=
    medianOf_eq_none_iff.mp hmed
  have hall : ∀ r ∈ rows, r.billing = none := List.filterMap_eq_nil_iff.mp hnil
  intro m' hm'
  rcases List.mem_map.mp hm' with ⟨c', hcm', rfl⟩
  simp only [hall c' hcm', hmed]

/-- Second-run coercion fixes a row whose text fields are strip-fixed and
whose Gender field is in normalised form. -/
theorem recleanCRow_eq_self {s : Schema} {c : CRow}
    (hn : stripStr c.name = c.name) (hb : stripStr c.bloodType = c.bloodType)
    (hc : stripStr c.condition = c.condition) (hd : stripStr c.doctor = c.doctor)
    (hh : stripStr c.hospital = c.hospital) (hi : stripStr c.insurance = c.insurance)
    (hg : genderReplace (titleStr (stripStr c.gender)) = c.gender) :
    recleanCRow s c = c := by
  obtain ⟨na, bl, co, dc, ho, ins, da, bi, ag, ge⟩ := c
  simp only at hn hb hc hd hh hi hg
  simp only [recleanCRow, hn, hb, hc, hd, hh, hi, hg, ite_self]

theorem stripStr_ite_cleanText (b : Bool) (cell : Option String) :
    stripStr (if b then cleanText cell else "") = if b then cleanText cell else "" := by
  cases b
  · simp only [Bool.false_eq_true, if_false]
    decide
  · simp only [if_true]
    exact stripStr_stripStr _

theorem genderNorm_ite (b : Bool) (cell : Option String) :
    genderReplace (titleStr (stripStr (if b then cleanGender cell else "")))
      = if b then cleanGender cell else "" := by
  cases b
  · simp only [Bool.false_eq_true, if_false]
    decide
  · simp only [if_true]
    exact genderNorm_idem (astypeStr cell)

/-- The text fields of a cleaned row are strip-fixed and its Gender field
is a fixed point of the Gender normalisation. -/
theorem cleanRow_text_fixed (s : Schema) (raw : RawRow) :
    stripStr (cleanRow s raw).name = (cleanRow s raw).name
    ∧ stripStr (cleanRow s raw).bloodType = (cleanRow s raw).bloodType
    ∧ stripStr (cleanRow s raw).condition = (cleanRow s raw).condition
    ∧ stripStr (cleanRow s raw).doctor = (cleanRow s raw).doctor
    ∧ stripStr (cleanRow s raw).hospital = (cleanRow s raw).hospital
    ∧ stripStr (cleanRow s raw).insurance = (cleanRow s raw).insurance
    ∧ genderReplace (titleStr (stripStr (cleanRow s raw).gender)) = (cleanRow s raw).gender :=
  ⟨stripStr_ite_cleanText _ _, stripStr_ite_cleanText _ _, stripStr_ite_cleanText _ _,
    stripStr_ite_cleanText _ _, stripStr_ite_cleanText _ _, stripStr_ite_cleanText _ _,
    genderNorm_ite _ _⟩

/-- Cleaned rows are fixed points of the second-run coercion: the text
fields are already stripped and Gender is already normalised. -/
theorem recleanCRow_cleanRow (s : Schema) (raw : RawRow) :
    recleanCRow s (cleanRow s raw) = cleanRow s raw := by
  have h := cleanRow_text_fixed s raw
  exact recleanCRow_eq_self h.1 h.2.1 h.2.2.1 h.2.2.2.1 h.2.2.2.2.1 h.2.2.2.2.2.1
    h.2.2.2.2.2.2

theorem padZero_length_ge (k : Nat) (l : List Char) : k ≤ (padZero k l).length := by
  unfold padZero
  rw [List.length_append, List.length_replicate]
  omega

/-- A real `"YYYY-MM"` month string is never the NaT placeholder. -/
theorem fmtYM_ne_NaT (d : PDate) : fmtYM d ≠ "NaT" := by
  intro h
  have hd : (fmtYM d).data = "NaT".data := by rw [h]
  unfold fmtYM at hd
  rw [data_mk] at hd
  have hlen := congrArg List.length hd
  rw [List.length_append, List.length_cons] at hlen
  have h4 := padZero_length_ge 4 (natDigits d.year)
  have h2 := padZero_length_ge 2 (natDigits d.month)
  have h3 : ("NaT".data).length = 3 := by decide
  omega

/-- What `cleanPhase` returns when the Date of Admission column exists. -/
theorem cleanPhase_ok {t : RawTable} (hd : t.schema.hasDate = true) :
    cleanPhase t = Except.ok (cleanedRowsOf t) := by
  unfold cleanPhase cleanedRowsOf
  rw [if_pos hd]

/-- With the two unguarded columns present, the run succeeds and produces
exactly `outputsOf t`. -/
theorem pipeline_eq_outputsOf {t : RawTable} (hd : t.schema.hasDate = true)
    (hb : t.schema.hasBilling = true) :
    pipeline t = Except.ok (outputsOf t) := by
  unfold pipeline outputsOf
  simp only [cleanPhase_ok hd]
  rw [if_pos hb]

/-! ## Claim theorems -/

/-- C7: Age Group is derived from Age by the fixed right-closed buckets
with the lowest edge inclusive — `[0,18]` is Child, `(18,40]` Adult,
`(40,60]` Middle, `(60,200]` Senior; in particular ages 17 and 18 map to
Child, 19 to Adult, 200 to Senior, and a null, negative or above-200 Age
yields no bucket. -/
theorem C7_age_group_buckets :
    ageGroupOf none = none
    ∧ (∀ a : Rat,
        (ageGroupOf (some a) = some "Child (0-18)" ↔ 0 ≤ a ∧ a ≤ 18)
        ∧ (ageGroupOf (some a) = some "Adult (19-40)" ↔ 18 < a ∧ a ≤ 40)
        ∧ (ageGroupOf (some a) = some "Middle (41-60)" ↔ 40 < a ∧ a ≤ 60)
        ∧ (ageGroupOf (some a) = some "Senior (61+)" ↔ 60 < a ∧ a ≤ 200)
        ∧ (ageGroupOf (some a) = none ↔ a < 0 ∨ 200 < a))
    ∧ ageGroupOf (some 17) = some "Child (0-18)"
    ∧ ageGroupOf (some 18) = some "Child (0-18)"
    ∧ ageGroupOf (some 19) = some "Adult (19-40)"
    ∧ ageGroupOf (some 200) = some "Senior (61+)"
    ∧ ageGroupOf (some 201) = none
    ∧ ageGroupOf (some (-1)) = none := by
  refine ⟨rfl, ?_, by decide, by decide, by decide, by decide, by decide, by decide⟩
  intro a
  simp only [ageGroupOf]
  split_ifs with h1 h2 h3 h4
  · refine ⟨⟨fun _ => h1, fun _ => rfl⟩, ?_, ?_, ?_, ?_⟩
    · exact ⟨fun h => absurd h (by decide), fun h => absurd h.1 (not_lt.mpr h1.2)⟩
    · exact ⟨fun h => absurd h (by decide),
        fun h => absurd h.1 (not_lt.mpr (by linarith [h1.2]))⟩
    · exact ⟨fun h => absurd h (by decide),
        fun h => absurd h.1 (not_lt.mpr (by linarith [h1.2]))⟩
    · exact ⟨fun h => absurd h (by decide),
        fun h => by rcases h with h | h <;> exfalso <;> linarith [h1.1, h1.2]⟩
  · refine ⟨?_, ⟨fun _ => h2, fun _ => rfl⟩, ?_, ?_, ?_⟩
    · exact ⟨fun h => absurd h (by decide), fun h => absurd h h1⟩
    · exact ⟨fun h => absurd h (by decide), fun h => absurd h.1 (not_lt.mpr h2.2)⟩
    · exact ⟨fun h => absurd h (by decide),
        fun h => absurd h.1 (not_lt.mpr (by linarith [h2.2]))⟩
    · exact ⟨fun h => absurd h (by decide),
        fun h => by rcases h with h | h <;> exfalso <;> linarith [h2.1, h2.2]⟩
  · refine ⟨?_, ?_, ⟨fun _ => h3, fun _ => rfl⟩, ?_, ?_⟩
    · exact ⟨fun h => absurd h (by decide), fun h => absurd h h1⟩
    · exact ⟨fun h => absurd h (by decide), fun h => absurd h h2⟩
    · exact ⟨fun h => absurd h (by decide), fun h => absurd h.1 (not_lt.mpr h3.2)⟩
    · exact ⟨fun h => absurd h (by decide),
        fun h => by rcases h with h | h <;> exfalso <;> linarith [h3.1, h3.2]⟩
  · refine ⟨?_, ?_, ?_, ⟨fun _ => h4, fun _ => rfl⟩, ?_⟩
    · exact ⟨fun h => absurd h (by decide), fun h => absurd h h1⟩
    · exact ⟨fun h => absurd h (by decide), fun h => absurd h h2⟩
    · exact ⟨fun h => absurd h (by decide), fun h => absurd h h3⟩
    · exact ⟨fun h => absurd h (by decide),
        fun h => by rcases h with h | h <;> exfalso <;> linarith [h4.1, h4.2]⟩
  · refine ⟨?_, ?_, ?_, ?_, ⟨fun _ => ?_, fun _ => rfl⟩⟩
    · exact ⟨fun h => absurd h (by decide), fun h => absurd h h1⟩
    · exact ⟨fun h => absurd h (by decide), fun h => absurd h h2⟩
    · exact ⟨fun h => absurd h (by decide), fun h => absurd h h3⟩
    · exact ⟨fun h => absurd h (by decide), fun h => absurd h h4⟩
    · rcases lt_or_ge a 0 with hneg | hge
      · exact Or.inl hneg
      · right
        have t1 : 18 < a := by
          by_contra hx
          push_neg at hx
          exact h1 ⟨hge, hx⟩
        have t2 : 40 < a := by
          by_contra hx
          push_neg at hx
          exact h2 ⟨t1, hx⟩
        have t3 : 60 < a := by
          by_contra hx
          push_neg at hx
          exact h3 ⟨t2, hx⟩
        by_contra hx
        push_neg at hx
        exact h4 ⟨t3, hx⟩

/-- C4: Billing Amount parsing strips every character outside the
`[0-9.\-]` class and parses the remainder as a decimal, unparseable
remainders becoming null: inserting any stripped character anywhere in
the cell changes nothing, `"$1,234.56"` parses to 1234.56, `"abc"`
becomes null, and in a concrete run the null is then imputed to the
pre-imputation column median (15 for non-null values 10 and 20). -/
theorem C4_billing_parse_and_impute :
    (∀ (l1 l2 : List Char) (c : Char), billingKeep c = false →
        cleanBilling (some (String.mk (l1 ++ c :: l2)))
          = cleanBilling (some (String.mk (l1 ++ l2))))
    ∧ cleanBilling (some "$1,234.56") = some (123456 / 100 : Rat)
    ∧ cleanBilling (some "abc") = none
    ∧ (cleanPhase tBillMix).toOption.map (fun rs => rs.map (fun e => e.row.billing))
        = some [some 15, some 10, some 20]
    ∧ medianOf [10, 20] = some 15 := by
  refine ⟨?_, by decide, by decide, by decide, by decide⟩
  intro l1 l2 c hc
  unfold cleanBilling astypeStr
  rw [data_mk, data_mk, List.filter_append, List.filter_append, List.filter_cons, hc,
    if_neg Bool.false_ne_true]

/-- C4 witness: instantiating the stripped-character invariance at the
comma of `"1,2"`. -/
theorem C4_billing_parse_and_impute_witness :
    billingKeep ',' = false
    ∧ cleanBilling (some (String.mk (['1'] ++ ',' :: ['2'])))
        = cleanBilling (some (String.mk (['1'] ++ ['2']))) :=
  ⟨by decide, C4_billing_parse_and_impute.1 ['1'] ['2'] ',' (by decide)⟩

/-- C2 (code evaluation at the failing input): a missing Gender cell
comes out of cleaning as the string `"Nan"`, not `"Unknown"`:
`astype(str)` stringifies NaN to `"nan"` before strip/title-casing, so
the later `fillna("Unknown")` of script line 60 finds no null to
replace. The trim/title-case and M/F-mapping parts of the claim do hold,
and they are idempotent. -/
theorem C2_null_gender_is_Nan_not_Unknown :
    cleanGender none = "Nan"
    ∧ "Nan" ≠ "Unknown"
    ∧ (cleanPhase tGenderNull).toOption.map (fun rs => rs.map (fun e => e.row.gender))
        = some ["Nan"]
    ∧ (∀ x : String, cleanGender (some x) = genderReplace (titleStr (stripStr x)))
    ∧ cleanGender (some " m ") = "Male"
    ∧ cleanGender (some "F") = "Female"
    ∧ cleanGender (some "  feMale") = "Female" := by
  exact ⟨by decide, by decide, by decide, fun x => rfl, by decide, by decide, by decide⟩

/-- C1 (counterexample): the pipeline is not guarded everywhere — the
derived-column block (script lines 72-74) and the KPI block (lines 84-88)
access `Date of Admission` and `Billing Amount` without a
column-existence check, so a table lacking either of those optional
columns aborts with a KeyError instead of completing with the
corresponding outputs skipped. -/
theorem C1_unguarded_columns_fail :
    errOf (pipeline tNoDate) = some "KeyError: Date of Admission"
    ∧ errOf (pipeline tNoBilling) = some "KeyError: Billing Amount" := by
  exact ⟨by decide, by decide⟩

/-- C1 (amended): when the two unguarded columns (Date of Admission and
Billing Amount) are present, the pipeline completes for every table and
every other optional column may be absent without failure: each guarded
metric table and chart is produced exactly when its source column is
present, and only those outputs are skipped when it is absent. -/
theorem C1_optional_columns_amended (t : RawTable)
    (hd : t.schema.hasDate = true) (hb : t.schema.hasBilling = true) :
    errOf (pipeline t) = none
    ∧ pipeline t = Except.ok (outputsOf t)
    ∧ (outputsOf t).condCounts.isSome = t.schema.hasCond
    ∧ (outputsOf t).avgBillCond.isSome = t.schema.hasCond
    ∧ (outputsOf t).bloodCounts.isSome = t.schema.hasBlood
    ∧ (outputsOf t).avgBillBlood.isSome = t.schema.hasBlood
    ∧ (("top10_medical_conditions.png" ∈ (outputsOf t).charts) ↔ t.schema.hasCond = true)
    ∧ (("avg_billing_by_condition.png" ∈ (outputsOf t).charts) ↔ t.schema.hasCond = true)
    ∧ (("gender_distribution.png" ∈ (outputsOf t).charts) ↔ t.schema.hasGender = true)
    ∧ (("age_group_distribution.png" ∈ (outputsOf t).charts) ↔ t.schema.hasAge = true)
    ∧ (("insurance_provider_share.png" ∈ (outputsOf t).charts) ↔ t.schema.hasIns = true)
    ∧ (("blood_type_distribution.png" ∈ (outputsOf t).charts) ↔ t.schema.hasBlood = true)
    ∧ (("avg_billing_by_bloodtype.png" ∈ (outputsOf t).charts) ↔ t.schema.hasBlood = true)
    ∧ (("admissions_over_time.png" ∈ (outputsOf t).charts)
        ↔ (monthlyOf (cleanedRowsOf t)).isEmpty = false) := by
  refine ⟨?_, pipeline_eq_outputsOf hd hb, ?_, ?_, ?_, ?_, ?_, ?_, ?_, ?_, ?_, ?_, ?_, ?_⟩
  · rw [pipeline_eq_outputsOf hd hb]
    rfl
  · cases hcond : t.schema.hasCond <;> simp [outputsOf, hcond]
  · cases hcond : t.schema.hasCond <;> simp [outputsOf, hcond]
  · cases hblood : t.schema.hasBlood <;> simp [outputsOf, hblood]
  · cases hblood : t.schema.hasBlood <;> simp [outputsOf, hblood]
  · cases hcond : t.schema.hasCond <;> simp [outputsOf, mem_ite_nil, hcond]
  · cases hcond : t.schema.hasCond <;> simp [outputsOf, mem_ite_nil, hcond]
  · cases hg : t.schema.hasGender <;> simp [outputsOf, mem_ite_nil, hg]
  · cases ha : t.schema.hasAge <;> simp [outputsOf, mem_ite_nil, ha]
  · cases hi : t.schema.hasIns <;> simp [outputsOf, mem_ite_nil, hi]
  · cases hblood : t.schema.hasBlood <;> simp [outputsOf, mem_ite_nil, hblood]
  · cases hblood : t.schema.hasBlood <;> simp [outputsOf, mem_ite_nil, hblood]
  · cases hm : (monthlyOf (cleanedRowsOf t)).isEmpty <;> simp [outputsOf, mem_ite_nil, hm]

/-- C1 witness: a table lacking only the Blood Type column completes,
and exactly the blood-type metric tables and charts are skipped. -/
theorem C1_optional_columns_amended_witness :
    tNoBlood.schema.hasDate = true
    ∧ tNoBlood.schema.hasBilling = true
    ∧ errOf (pipeline tNoBlood) = none
    ∧ (outputsOf tNoBlood).bloodCounts.isSome = tNoBlood.schema.hasBlood
    ∧ (("blood_type_distribution.png" ∈ (outputsOf tNoBlood).charts)
        ↔ tNoBlood.schema.hasBlood = true) :=
  ⟨rfl, rfl, (C1_optional_columns_amended tNoBlood rfl rfl).1,
    (C1_optional_columns_amended tNoBlood rfl rfl).2.2.2.2.1,
    (C1_optional_columns_amended tNoBlood rfl rfl).2.2.2.2.2.2.2.2.2.2.2.1⟩

/-- C3 (counterexample): when every Billing Amount value in the column is
unparseable, the pre-imputation median over the non-null values is itself
NaN, `fillna` fills nothing, and a null Billing Amount survives cleaning —
the claim's unconditional non-null invariant fails. -/
theorem C3_all_unparseable_billing_stays_null :
    (cleanPhase tBillAllBad).toOption.map (fun rs => rs.map (fun e => e.row.billing))
      = some [none] := by
  decide

/-- C3 (amended): each unparseable Billing Amount is coerced to null and
then filled with the column median computed before imputation over the
non-null values only; provided at least one value in the column parses
(so that this median exists), every row's Billing Amount is non-null
after cleaning. -/
theorem C3_billing_nonnull_when_median_exists :
    (∀ (s : Schema) (rows : List CRow), s.hasBilling = true →
        imputeBilling s rows = rows.map (fun r =>
          { r with billing := match r.billing with
              | some q => some q
              | none => medianOf (rows.filterMap (fun r => r.billing)) }))
    ∧ (∀ (t : RawTable) (r : RawRow), t.schema.hasBilling = true → r ∈ t.rows →
        (cleanBilling r.billing).isSome = true →
        ((cleanPhase t).toOption.getD []).all (fun e => e.row.billing.isSome) = true) := by
  refine ⟨imputeBilling_char, ?_⟩
  intro t r hb hmem hparse
  by_cases hd : t.schema.hasDate = true
  · rw [cleanPhase_ok hd]
    rw [List.all_eq_true]
    intro e he
    simp only [Except.toOption, Option.getD] at he
    unfold cleanedRowsOf at he
    rcases List.mem_map.mp he with ⟨m, hm, rfl⟩
    show m.billing.isSome = true
    rw [imputeBilling_char _ _ hb] at hm
    rcases List.mem_map.mp hm with ⟨c, _, rfl⟩
    have hmed : (medianOf ((dedupKF (t.rows.map (cleanRow t.schema))).filterMap
        (fun r => r.billing))).isSome = true := by
      apply medianOf_isSome
      intro hnil
      have hall := List.filterMap_eq_nil_iff.mp hnil
      have hcmem : cleanRow t.schema r ∈ dedupKF (t.rows.map (cleanRow t.schema)) :=
        (mem_dedupKF _ _).mpr (List.mem_map_of_mem _ hmem)
      have hnone := hall _ hcmem
      have hbill : (cleanRow t.schema r).billing = cleanBilling r.billing := by
        show (if t.schema.hasBilling then cleanBilling r.billing else none)
          = cleanBilling r.billing
        rw [hb, if_pos rfl]
      rw [hbill] at hnone
      rw [hnone] at hparse
      cases hparse
    cases hcb : c.billing with
    | some q => rfl
    | none =>
      show (medianOf _).isSome = true
      exact hmed
  · unfold cleanPhase
    rw [if_neg hd]
    rfl

/-- C3 witness: in `tBillMix` the row with Billing `"10"` parses, so after
cleaning no Billing Amount is null. -/
theorem C3_billing_nonnull_when_median_exists_witness :
    tBillMix.schema.hasBilling = true
    ∧ rBill10 ∈ tBillMix.rows
    ∧ (cleanBilling rBill10.billing).isSome = true
    ∧ ((cleanPhase tBillMix).toOption.getD []).all (fun e => e.row.billing.isSome) = true :=
  ⟨rfl, by decide, by decide,
    C3_billing_nonnull_when_median_exists.2 tBillMix rBill10 rfl (by decide) (by decide)⟩

/-- C9: exact-duplicate rows are removed before any metric is computed —
cleaning maps two identical raw rows to the same cleaned row, of which
exactly one survives `drop_duplicates`; the KPI row count (and with it
every metric, all computed from the deduplicated table) counts the
deduplicated rows. -/
theorem C9_dedup_before_metrics :
    (∀ (s : Schema) (l : List RawRow) (r : RawRow), r ∈ l →
        (dedupKF (l.map (cleanRow s))).count (cleanRow s r) = 1)
    ∧ (∀ t : RawTable, (pipeline t).toOption.map (fun o => o.kpi.totalPatients)
        = (pipeline t).toOption.map
            (fun _ => (dedupKF (t.rows.map (cleanRow t.schema))).length))
    ∧ (pipeline tTwins).toOption.map (fun o => o.kpi.totalPatients) = some 1 := by
  refine ⟨?_, ?_, by decide⟩
  · intro s l r hr
    rw [count_dedupKF, if_pos (List.mem_map_of_mem _ hr)]
  · intro t
    by_cases hd : t.schema.hasDate = true
    · by_cases hb : t.schema.hasBilling = true
      · rw [pipeline_eq_outputsOf hd hb]
        simp only [Except.toOption, Option.map]
        unfold outputsOf cleanedRowsOf
        simp only [List.length_map, length_imputeBilling]
      · unfold pipeline
        simp only [cleanPhase_ok hd]
        rw [if_neg hb]
        rfl
    · unfold pipeline cleanPhase
      rw [if_neg hd]
      rfl

/-- C9 witness: the duplicated row of `tTwins` survives exactly once. -/
theorem C9_dedup_before_metrics_witness :
    rTwin ∈ tTwins.rows
    ∧ (dedupKF (tTwins.rows.map (cleanRow tTwins.schema))).count
        (cleanRow tTwins.schema rTwin) = 1 :=
  ⟨by decide, C9_dedup_before_metrics.1 tTwins.schema tTwins.rows rTwin (by decide)⟩

/-- C5 (counterexample): for a row with a null Date of Admission the
code's Admission Month cell is the literal non-null string `"NaT"` —
`dt.to_period("M").astype(str)` materialises NaT as text — whereas the
spec-side definition (null date propagates as null) gives a null; the
claim that all three derived columns are null is false for Admission
Month. Admission Year and Month Name are indeed null. -/
theorem C5_null_date_counterexample :
    (cleanPhase tDateNull).toOption.map
        (fun rs => rs.map (fun e => (e.admissionYear, e.admissionMonth, e.monthName)))
      = some [(none, "NaT", none)]
    ∧ specAdmissionMonth blankCRow.date = none
    ∧ (deriveRow allSchema blankCRow).admissionMonth = "NaT"
    ∧ some ((deriveRow allSchema blankCRow).admissionMonth)
        ≠ specAdmissionMonth blankCRow.date := by
  exact ⟨by decide, by decide, by decide, by decide⟩

/-- C5 (amended): for every row with a null Date of Admission the derived
Admission Year and Month Name are null after cleaning, but the derived
Admission Month is the literal non-null string `"NaT"`, not a null. -/
theorem C5_null_date_amended :
    ∀ (s : Schema) (r : CRow), r.date = none →
      (deriveRow s r).admissionYear = none
      ∧ (deriveRow s r).admissionMonth = "NaT"
      ∧ (deriveRow s r).monthName = none := by
  intro s r h
  refine ⟨?_, ?_, ?_⟩ <;> simp [deriveRow, h]

/-- C5 witness: the amended claim at a concrete row with a null date. -/
theorem C5_null_date_amended_witness :
    blankCRow.date = none
    ∧ ((deriveRow allSchema blankCRow).admissionYear = none
      ∧ (deriveRow allSchema blankCRow).admissionMonth = "NaT"
      ∧ (deriveRow allSchema blankCRow).monthName = none) :=
  ⟨rfl, C5_null_date_amended allSchema blankCRow rfl⟩

/-- C8 (counterexample): the monthly table does not contain "the rows
with a non-null Admission Month": in the code's cleaned table Admission
Month is a string column with no nulls (`"NaT"` for null dates), so that
reading would keep every row, yet the code filters on a non-null Date of
Admission and drops the `"NaT"` rows — on a one-row table with a null
date the code's table is empty while the claim's reading has one row. -/
theorem C8_monthly_counterexample :
    (cleanPhase tDateNull).toOption.map monthlyOf = some []
    ∧ (cleanPhase tDateNull).toOption.map specMonthly = some [("NaT", 1)]
    ∧ (pipeline tDateNull).toOption.map (fun o => o.monthly) = some []
    ∧ ([] : List (String × Nat)) ≠ [("NaT", 1)] := by
  exact ⟨by decide, by decide, by decide, by decide⟩

/-- C8 (amended): the admissions-by-month table contains exactly the rows
with a non-null Date of Admission — equivalently, the rows whose derived
Admission Month differs from the placeholder string `"NaT"` — grouped by
month with a count per month and sorted ascending by the month string;
on the example dates the output is `("2023-01", 2), ("2023-02", 1)`. -/
theorem C8_monthly_amended :
    (∀ (s : Schema) (r : CRow),
        (deriveRow s r).admissionMonth ≠ "NaT" ↔ r.date.isSome = true)
    ∧ (∀ rows : List ERow,
        monthlyOf rows =
          (sortStrAsc (dedupKF ((rows.filter (fun e => e.row.date.isSome)).map
            (fun e => e.admissionMonth)))).map
            (fun k => (k, ((rows.filter (fun e => e.row.date.isSome)).map
              (fun e => e.admissionMonth)).count k)))
    ∧ (pipeline tMonths).toOption.map (fun o => o.monthly)
        = some [("2023-01", 2), ("2023-02", 1)] := by
  refine ⟨?_, fun rows => rfl, by decide⟩
  intro s r
  cases hds : r.date with
  | none => simp [deriveRow, hds]
  | some d => simp [deriveRow, hds, fmtYM_ne_NaT d]

/-- C10 (counterexample): the chart helpers are straight-line code with no
try/finally, so when `plt.savefig` raises, `plt.close()` never runs — the
release of the figure is not guaranteed "regardless of success". -/
theorem C10_figure_release_counterexample :
    (save_bar true "top10_medical_conditions.png").2.isSome = true
    ∧ FigStep.close ∉ (save_bar true "top10_medical_conditions.png").1
    ∧ FigStep.close ∉ (save_pie true "gender_distribution.png").1
    ∧ FigStep.close ∉ (save_line true "admissions_over_time.png").1 := by
  exact ⟨by decide, by decide, by decide, by decide⟩

/-- C10 (amended): on the success path every chart-rendering call creates
a new figure, draws it, saves it to its path at the fixed 150 dpi and
then releases it, so no figure state leaks from one chart into the next;
but when `savefig` raises, the call stops after create-and-draw, the
exception propagates, and the close is skipped (release is guaranteed
only after a successful save). -/
theorem C10_figure_lifecycle_amended :
    ∀ path : String,
      (save_bar false path
          = ([FigStep.create, FigStep.draw, FigStep.save path 150, FigStep.close], none)
        ∧ save_pie false path
          = ([FigStep.create, FigStep.draw, FigStep.save path 150, FigStep.close], none)
        ∧ save_line false path
          = ([FigStep.create, FigStep.draw, FigStep.save path 150, FigStep.close], none))
      ∧ ((save_bar true path).1 = [FigStep.create, FigStep.draw]
        ∧ (save_bar true path).2.isSome = true
        ∧ FigStep.close ∉ (save_bar true path).1
        ∧ (save_pie true path).1 = [FigStep.create, FigStep.draw]
        ∧ FigStep.close ∉ (save_pie true path).1
        ∧ (save_line true path).1 = [FigStep.create, FigStep.draw]
        ∧ FigStep.close ∉ (save_line true path).1) := by
  intro path
  have hbar : (save_bar true path).1 = [FigStep.create, FigStep.draw] := rfl
  have hpie : (save_pie true path).1 = [FigStep.create, FigStep.draw] := rfl
  have hline : (save_line true path).1 = [FigStep.create, FigStep.draw] := rfl
  refine ⟨⟨rfl, rfl, rfl⟩, rfl, rfl, ?_, rfl, ?_, rfl, ?_⟩
  · rw [hbar]
    decide
  · rw [hpie]
    decide
  · rw [hline]
    decide

/-- C6 (counterexample): re-running the cleaning on the cleaned output is
not idempotent. Median imputation runs after `drop_duplicates`, so it can
map two rows that differed only in Billing Amount (one null, one equal to
the median) to identical rows; the cleaned output then contains an exact
duplicate, and the second cleaning run drops a row. -/
theorem C6_reclean_not_idempotent :
    (cleanPhase tMergeDup).toOption.map List.length = some 2
    ∧ (cleanPhase tMergeDup).toOption.map
        (fun rs => rs.map (fun e => e.row.billing)) = some [some 20, some 20]
    ∧ (cleanPhase tMergeDup).toOption.map
        (fun rs => (reclean tMergeDup.schema rs).length) = some 1 := by
  exact ⟨by decide, by decide, by decide⟩

/-- C6 (amended): whenever the cleaned output contains no duplicate rows
(in particular whenever imputation merged no rows), re-running the
cleaning on it is the identity: the text and Gender normalisations are
idempotent, `drop_duplicates` finds nothing to drop, the imputation finds
no null to fill (or only nulls with a NaN median, which stay in place),
and the derived columns are recomputed to the same values. -/
theorem C6_reclean_idempotent_on_nodup :
    ∀ t : RawTable,
      ((cleanPhase t).toOption.getD []).Nodup →
      reclean t.schema ((cleanPhase t).toOption.getD [])
        = (cleanPhase t).toOption.getD [] := by
  intro t
  cases hc : cleanPhase t with
  | error e =>
    intro _
    simp [Except.toOption, reclean, imputeBillingE, dedupKF, dedupAcc]
  | ok rows =>
    intro hnd
    simp only [Except.toOption, Option.getD] at hnd ⊢
    have hrows : rows = (imputeBilling t.schema
        (dedupKF (t.rows.map (cleanRow t.schema)))).map (deriveRow t.schema) := by
      by_cases hd : t.schema.hasDate = true
      · have h2 := cleanPhase_ok (t := t) hd
        rw [hc] at h2
        injection h2
      · unfold cleanPhase at hc
        rw [if_neg hd] at hc
        cases hc
    have hA : rows.map (recleanERow t.schema) = rows := by
      apply map_self
      intro e he
      rw [hrows] at he
      rcases List.mem_map.mp he with ⟨m, hm, rfl⟩
      have hrc : recleanCRow t.schema m = m := by
        rcases imputeBilling_fields _ _ _ hm with
          ⟨c, hcmem, f1, f2, f3, f4, f5, f6, _, _, f9⟩
        rcases (mem_dedupKF _ _).mp hcmem with hcoerced
        rcases List.mem_map.mp hcoerced with ⟨raw, _, rfl⟩
        have hfix := cleanRow_text_fixed t.schema raw
        refine recleanCRow_eq_self ?_ ?_ ?_ ?_ ?_ ?_ ?_
        · rw [f1]; exact hfix.1
        · rw [f2]; exact hfix.2.1
        · rw [f3]; exact hfix.2.2.1
        · rw [f4]; exact hfix.2.2.2.1
        · rw [f5]; exact hfix.2.2.2.2.1
        · rw [f6]; exact hfix.2.2.2.2.2.1
        · rw [f9]; exact hfix.2.2.2.2.2.2
      show { deriveRow t.schema m with row := recleanCRow t.schema ((deriveRow t.schema m).row) }
        = deriveRow t.schema m
      rw [show (deriveRow t.schema m).row = m from rfl, hrc]
      rfl
    have hC : imputeBillingE t.schema rows = rows := by
      unfold imputeBillingE
      cases hg : (t.schema.hasBilling && rows.any fun e => e.row.billing.isNone) with
      | false => rw [if_neg Bool.false_ne_true]
      | true =>
        simp only [Bool.and_eq_true] at hg
        rcases hg with ⟨hb, hany⟩
        rcases List.any_eq_true.mp hany with ⟨e0, he0, hnone0⟩
        have he0n : e0.row.billing = none := by simpa using hnone0
        have hallnone : ∀ e ∈ rows, e.row.billing = none := by
          intro e he
          rw [hrows] at he he0
          rcases List.mem_map.mp he0 with ⟨m0, hm0, he0eq⟩
          rcases List.mem_map.mp he with ⟨m, hm, rfl⟩
          have hm0n : m0.billing = none := by
            have : (deriveRow t.schema m0).row.billing = none := he0eq ▸ he0n
            exact this
          exact imputeBilling_allNone _ _ hb m0 hm0 hm0n m hm
        have hnil : rows.filterMap (fun e => e.row.billing) = [] :=
          List.filterMap_eq_nil_iff.mpr hallnone
        have hmedn : medianOf (rows.filterMap fun e => e.row.billing) = none := by
          rw [hnil]
          rfl
        rw [if_pos rfl]
        apply map_self
        intro e he
        have h1 : (match e.row.billing with
            | some q => some q
            | none => medianOf (rows.filterMap fun e => e.row.billing))
            = e.row.billing := by
          rw [hallnone e he, hmedn]
        rw [h1]
    have hD : rows.map (fun e => deriveRow t.schema e.row) = rows := by
      apply map_self
      intro e he
      rw [hrows] at he
      rcases List.mem_map.mp he with ⟨m, hm, rfl⟩
      rfl
    unfold reclean
    rw [hA, dedupKF_eq_self_of_nodup rows hnd, hC, hD]

/-- C6 witness: on a table whose cleaned output has no duplicate rows,
re-cleaning is the identity. -/
theorem C6_reclean_idempotent_on_nodup_witness :
    ((cleanPhase tMonths).toOption.getD []).Nodup
    ∧ reclean tMonths.schema ((cleanPhase tMonths).toOption.getD [])
        = (cleanPhase tMonths).toOption.getD [] :=
  ⟨by decide, C6_reclean_idempotent_on_nodup tMonths (by decide)⟩

end HealthPipe
